import Mathlib

/-!
Shallow embedding of `src/esp/main/main.ino`: an Arduino sketch that reads
single-character commands from the serial port and issues BLE HID mouse
events (relative moves and clicks) through the `BleMouse` library.

The externally visible behaviour of one `loop()` iteration is modelled as a
trace of `Event`s (delays, HID reports, serial output) together with the
updated machine state (elapsed time and the remaining pending serial bytes).
-/

namespace RPiPlayEsp

/-- Mouse buttons, mirroring the `MOUSE_LEFT` / `MOUSE_RIGHT` / `MOUSE_MIDDLE`
constants passed to `bleMouse.click`. -/
inductive MouseButton where
  | left
  | right
  | middle
deriving DecidableEq, Repr

/-- One externally visible effect of the sketch: a blocking `delay(ms)`, an HID
report (`bleMouse.move` or `bleMouse.click`), or a serial diagnostic write
(`Serial.print` / `Serial.println`). -/
inductive Event where
  | delay (ms : Nat)
  | move (dx dy : Int)
  | click (button : MouseButton)
  | serialPrint (s : String)
  | serialPrintln (s : String)
deriving DecidableEq, Repr

/-- The `for (int i=0;i<2;++i){ bleMouse.move(dx,dy); delay(pause); }` pattern
of the directional cases, generalised over the iteration count. -/
def moveBurst (dx dy : Int) (pause : Nat) : Nat → List Event
  | 0 => []
  | n + 1 => Event.move dx dy :: Event.delay pause :: moveBurst dx dy pause n

/-- The `switch (input)` statement of `loop()` (main.ino lines 17–69): the
trace of effects produced for one input character, assuming the BLE peer is
connected. -/
def dispatch (input : Char) : List Event :=
  if input = 'w' then
    moveBurst 0 (-127) 100 2 ++ [Event.serialPrintln "↑"]
  else if input = 's' then
    moveBurst 0 127 100 2 ++ [Event.serialPrintln "↓"]
  else if input = 'a' then
    moveBurst (-50) 0 50 2 ++ [Event.serialPrintln "←"]
  else if input = 'd' then
    moveBurst 50 0 40 2 ++ [Event.serialPrintln "→"]
  else if input = 'c' then
    [Event.click MouseButton.left, Event.serialPrintln "Click"]
  else if input = 'r' then
    [Event.click MouseButton.right, Event.serialPrintln "Right click"]
  else if input = 'm' then
    [Event.click MouseButton.middle, Event.serialPrintln "Middle click"]
  else
    [Event.serialPrint "Unknown input: ", Event.serialPrintln (String.singleton input)]

/-- Machine state threaded through loop iterations: elapsed time in
milliseconds (advanced by every `delay`) and the bytes pending on the serial
input, oldest first. -/
structure MachState where
  time : Nat
  buffer : List Char
deriving DecidableEq, Repr

/-- Total milliseconds of `delay` events in a trace. -/
def totalDelay : List Event → Nat
  | [] => 0
  | Event.delay ms :: rest => ms + totalDelay rest
  | _ :: rest => totalDelay rest

/-- One iteration of `loop()` (main.ino lines 11–75): `delay(10)`, then if
`bleMouse.isConnected()` and `Serial.available()`, read one character and
dispatch it; if connected with nothing available, do nothing further; if not
connected, `delay(500)`. Returns the emitted trace and the new state. -/
def step (connected : Bool) (s : MachState) : List Event × MachState :=
  if connected then
    match s.buffer with
    | [] => ([Event.delay 10], { s with time := s.time + 10 })
    | c :: rest =>
        let es := Event.delay 10 :: dispatch c
        (es, { time := s.time + totalDelay es, buffer := rest })
  else
    ([Event.delay 10, Event.delay 500], { s with time := s.time + 510 })

/-- Whether an event is an HID report (a move or a click). -/
def Event.isReport : Event → Bool
  | Event.move _ _ => true
  | Event.click _ => true
  | _ => false

/-- The HID reports of a trace, in order. -/
def reports (es : List Event) : List Event :=
  es.filter Event.isReport

/-- The `(dx, dy)` arguments of the move reports of a trace, in order. -/
def moveArgs (es : List Event) : List (Int × Int) :=
  es.filterMap fun e =>
    match e with
    | Event.move dx dy => some (dx, dy)
    | _ => none

/-- Assemble the serial writes of a trace into completed diagnostic lines;
`acc` is the partial line written so far (a trailing unterminated `print` is
still sitting in the line, not yet a line). -/
def serialLinesAux (acc : String) : List Event → List String
  | [] => []
  | Event.serialPrint s :: rest => serialLinesAux (acc ++ s) rest
  | Event.serialPrintln s :: rest => (acc ++ s) :: serialLinesAux "" rest
  | _ :: rest => serialLinesAux acc rest

/-- The completed diagnostic lines of a trace, in order. -/
def serialLines (es : List Event) : List String :=
  serialLinesAux "" es

/-- C1: for each of the 7 recognized command characters, a connected loop
iteration that reads it emits exactly the documented HID reports — two
`move (0, -127)` for `w`, two `move (0, 127)` for `s`, two `move (-50, 0)` for
`a`, two `move (50, 0)` for `d`, one left click for `c`, one right click for
`r`, one middle click for `m` — and exactly the documented diagnostic line. -/
theorem dispatch_recognized_reports_and_lines :
    (reports (step true ⟨0, ['w']⟩).1 = [Event.move 0 (-127), Event.move 0 (-127)] ∧
      serialLines (step true ⟨0, ['w']⟩).1 = ["↑"]) ∧
    (reports (step true ⟨0, ['s']⟩).1 = [Event.move 0 127, Event.move 0 127] ∧
      serialLines (step true ⟨0, ['s']⟩).1 = ["↓"]) ∧
    (reports (step true ⟨0, ['a']⟩).1 = [Event.move (-50) 0, Event.move (-50) 0] ∧
      serialLines (step true ⟨0, ['a']⟩).1 = ["←"]) ∧
    (reports (step true ⟨0, ['d']⟩).1 = [Event.move 50 0, Event.move 50 0] ∧
      serialLines (step true ⟨0, ['d']⟩).1 = ["→"]) ∧
    (reports (step true ⟨0, ['c']⟩).1 = [Event.click MouseButton.left] ∧
      serialLines (step true ⟨0, ['c']⟩).1 = ["Click"]) ∧
    (reports (step true ⟨0, ['r']⟩).1 = [Event.click MouseButton.right] ∧
      serialLines (step true ⟨0, ['r']⟩).1 = ["Right click"]) ∧
    (reports (step true ⟨0, ['m']⟩).1 = [Event.click MouseButton.middle] ∧
      serialLines (step true ⟨0, ['m']⟩).1 = ["Middle click"]) := by
  decide

/-- C2: while disconnected, a loop iteration consumes no serial byte, emits no
HID report and no diagnostic line, whatever bytes are pending, and idles on a
longer total sleep (510 ms) than a connected idle iteration (10 ms). -/
theorem disconnected_consumes_nothing (t : Nat) (buf : List Char) :
    (step false ⟨t, buf⟩).2.buffer = buf ∧
    reports (step false ⟨t, buf⟩).1 = [] ∧
    serialLines (step false ⟨t, buf⟩).1 = [] ∧
    totalDelay (step true ⟨t, []⟩).1 < totalDelay (step false ⟨t, buf⟩).1 := by
  refine ⟨rfl, rfl, rfl, ?_⟩
  show 10 < 510
  decide

/-- C3: dispatching any character outside `{w,s,a,d,c,r,m}` while connected
emits zero HID reports and exactly one diagnostic line naming the character:
`Unknown input: X`. -/
theorem dispatch_unknown_char (c : Char)
    (h : c ∉ ['w', 's', 'a', 'd', 'c', 'r', 'm']) :
    reports (step true ⟨0, [c]⟩).1 = [] ∧
    serialLines (step true ⟨0, [c]⟩).1 = ["Unknown input: " ++ String.singleton c] := by
  simp only [List.mem_cons, List.not_mem_nil, or_false, not_or] at h
  obtain ⟨h1, h2, h3, h4, h5, h6, h7⟩ := h
  simp only [step, dispatch, if_neg h1, if_neg h2, if_neg h3, if_neg h4, if_neg h5,
    if_neg h6, if_neg h7]
  exact ⟨rfl, rfl⟩

/-- Witness for C3 at the concrete character `z`. -/
theorem dispatch_unknown_char_witness :
    reports (step true ⟨0, ['z']⟩).1 = [] ∧
    serialLines (step true ⟨0, ['z']⟩).1 = ["Unknown input: " ++ String.singleton 'z'] :=
  dispatch_unknown_char 'z' (by decide)

/-- C4: a connected iteration reading `w` produces exactly two
`move (0, -127)` reports separated by a 100 ms pause, followed by the
diagnostic line `↑`. -/
theorem dispatch_w_trace :
    (step true ⟨0, ['w']⟩).1 =
      [Event.delay 10, Event.move 0 (-127), Event.delay 100,
        Event.move 0 (-127), Event.delay 100, Event.serialPrintln "↑"] ∧
    (step true ⟨0, ['w']⟩).2 = ⟨210, []⟩ := by
  decide

/-- C5: a connected iteration reading `d` produces exactly two
`move (50, 0)` reports separated by a 40 ms pause, followed by the diagnostic
line `→`. -/
theorem dispatch_d_trace :
    (step true ⟨0, ['d']⟩).1 =
      [Event.delay 10, Event.move 50 0, Event.delay 40,
        Event.move 50 0, Event.delay 40, Event.serialPrintln "→"] ∧
    (step true ⟨0, ['d']⟩).2 = ⟨90, []⟩ := by
  decide

/-- C6: a connected iteration with pending serial bytes consumes exactly the
first one and dispatches it; with no pending byte it only performs the idle
delay and leaves the (empty) buffer unchanged — a non-blocking
check-then-read. -/
theorem reader_consumes_at_most_one (t : Nat) (c : Char) (rest : List Char) :
    step true ⟨t, c :: rest⟩ =
      (Event.delay 10 :: dispatch c,
        ⟨t + totalDelay (Event.delay 10 :: dispatch c), rest⟩) ∧
    step true ⟨t, []⟩ = ([Event.delay 10], ⟨t + 10, []⟩) :=
  ⟨rfl, rfl⟩

/-- C7: reading the same character on two consecutive connected iterations
produces two identical event bursts; no state carries over from the first
dispatch into the second (the second iteration consumes the second copy and
leaves the rest of the buffer). -/
theorem dispatch_twice_independent (t : Nat) (c : Char) (rest : List Char) :
    (step true ⟨t, c :: c :: rest⟩).1 =
      (step true (step true ⟨t, c :: c :: rest⟩).2).1 ∧
    (step true (step true ⟨t, c :: c :: rest⟩).2).2.buffer = rest :=
  ⟨rfl, rfl⟩

/-- Case analysis of the move deltas a dispatch can produce: one of the four
directional bursts, or none at all (clicks and the unknown fallback). -/
lemma moveArgs_dispatch (c : Char) :
    moveArgs (dispatch c) = [((0 : Int), (-127 : Int)), (0, -127)] ∨
    moveArgs (dispatch c) = [((0 : Int), (127 : Int)), (0, 127)] ∨
    moveArgs (dispatch c) = [((-50 : Int), (0 : Int)), (-50, 0)] ∨
    moveArgs (dispatch c) = [((50 : Int), (0 : Int)), (50, 0)] ∨
    moveArgs (dispatch c) = [] := by
  by_cases h1 : c = 'w'
  · subst h1; left; decide
  by_cases h2 : c = 's'
  · subst h2; right; left; decide
  by_cases h3 : c = 'a'
  · subst h3; right; right; left; decide
  by_cases h4 : c = 'd'
  · subst h4; right; right; right; left; decide
  right; right; right; right
  simp only [dispatch, if_neg h1, if_neg h2, if_neg h3, if_neg h4]
  split_ifs <;> rfl

/-- C8: every `move (dx, dy)` the dispatcher can ever issue has both deltas in
`{0, -127, 127, -50, 50}`, hence within the HID relative-axis range
`-127 ≤ · ≤ 127`. -/
theorem move_deltas_in_range (c : Char) (p : Int × Int)
    (hp : p ∈ moveArgs (dispatch c)) :
    (p.1 ∈ ([0, -127, 127, -50, 50] : List Int) ∧
      p.2 ∈ ([0, -127, 127, -50, 50] : List Int)) ∧
    (-127 ≤ p.1 ∧ p.1 ≤ 127 ∧ -127 ≤ p.2 ∧ p.2 ≤ 127) := by
  rcases moveArgs_dispatch c with h | h | h | h | h <;> rw [h] at hp <;>
    simp only [List.mem_cons, List.not_mem_nil, or_false] at hp
  · rcases hp with hp | hp <;> subst hp <;> decide
  · rcases hp with hp | hp <;> subst hp <;> decide
  · rcases hp with hp | hp <;> subst hp <;> decide
  · rcases hp with hp | hp <;> subst hp <;> decide

/-- Witness for C8 at the concrete dispatch of `w` and its first move. -/
theorem move_deltas_in_range_witness :
    ((0, -127) : Int × Int) ∈ moveArgs (dispatch 'w') ∧
    ((((0, -127) : Int × Int).1 ∈ ([0, -127, 127, -50, 50] : List Int) ∧
        (((0, -127) : Int × Int)).2 ∈ ([0, -127, 127, -50, 50] : List Int)) ∧
      (-127 ≤ (((0, -127) : Int × Int)).1 ∧ (((0, -127) : Int × Int)).1 ≤ 127 ∧
        -127 ≤ (((0, -127) : Int × Int)).2 ∧ (((0, -127) : Int × Int)).2 ≤ 127)) :=
  ⟨by decide, move_deltas_in_range 'w' (0, -127) (by decide)⟩

/-- C9: each directional burst performs its fixed pause after every move
report, including the last one, so the diagnostic glyph is printed only after
a trailing pause equal to the inter-report pause (100 ms for `w` and `s`,
50 ms for `a`, 40 ms for `d`). -/
theorem directional_trailing_delay :
    dispatch 'w' = [Event.move 0 (-127), Event.delay 100,
      Event.move 0 (-127), Event.delay 100, Event.serialPrintln "↑"] ∧
    dispatch 's' = [Event.move 0 127, Event.delay 100,
      Event.move 0 127, Event.delay 100, Event.serialPrintln "↓"] ∧
    dispatch 'a' = [Event.move (-50) 0, Event.delay 50,
      Event.move (-50) 0, Event.delay 50, Event.serialPrintln "←"] ∧
    dispatch 'd' = [Event.move 50 0, Event.delay 40,
      Event.move 50 0, Event.delay 40, Event.serialPrintln "→"] := by
  decide

/-- C10: the loop body is deterministic and its observable output depends on
nothing besides the connection status and the pending input: two iterations
run from states agreeing on the pending bytes (whatever their elapsed times)
emit identical traces and leave identical pending bytes. -/
theorem step_deterministic (conn : Bool) (s s' : MachState)
    (h : s.buffer = s'.buffer) :
    (step conn s).1 = (step conn s').1 ∧
    (step conn s).2.buffer = (step conn s').2.buffer := by
  obtain ⟨t, buf⟩ := s
  obtain ⟨t', buf'⟩ := s'
  simp only at h
  subst h
  cases conn
  · exact ⟨rfl, rfl⟩
  · cases buf
    · exact ⟨rfl, rfl⟩
    · exact ⟨rfl, rfl⟩

/-- Witness for C10: two connected iterations at different elapsed times but
the same pending byte produce the same trace and the same remaining buffer. -/
theorem step_deterministic_witness :
    (step true ⟨0, ['w']⟩).1 = (step true ⟨12345, ['w']⟩).1 ∧
    (step true ⟨0, ['w']⟩).2.buffer = (step true ⟨12345, ['w']⟩).2.buffer :=
  step_deterministic true ⟨0, ['w']⟩ ⟨12345, ['w']⟩ (by decide)

end RPiPlayEsp
